import Mathlib

/-!
Verification of the scan-platform backend (yyhuni/my-vulun-scan).

Shallow embedding of the provider, export, sink and retry logic of the
backend, together with proofs of the specification claims about them.
Each section names the Python source file it embeds; list-valued state
stands for database tables, and abstract `String → Bool` predicates stand
for the per-rule matchers of the blacklist filter.
-/

namespace VulnScan

/-! ## Blacklist filter (apps/common/utils) -/

/-- Modelled from the spec: the class `BlacklistFilter` (apps.common.utils)
is not under src/ (only its callers and tests are).  Per spec §4.F a filter
is a list of rules `{pattern, kind}` with kind ∈ {exact, suffix, substring,
glob, regex}; we model each rule by the match predicate it induces on raw
strings. -/
structure BlacklistRule where
  appliesTo : String → Bool

/-- Modelled from the spec: `BlacklistFilter` holds the rule set loaded for
one target. -/
structure BlacklistFilter where
  rules : List BlacklistRule

/-- Modelled from the spec: `is_allowed(target)` returns true iff no rule
matches. -/
def BlacklistFilter.isAllowed (f : BlacklistFilter) (v : String) : Bool :=
  ! f.rules.any (fun r => r.appliesTo v)

theorem isAllowed_iff_no_rule_matches (f : BlacklistFilter) (v : String) :
    f.isAllowed v = true ↔ ∀ r ∈ f.rules, r.appliesTo v = false := by
  unfold BlacklistFilter.isAllowed
  simp only [Bool.not_eq_true', List.any_eq_false, Bool.not_eq_true]

/-! ## Targets (apps/targets/models.Target) -/

/-- The target types that `Target.TargetType` exposes and that the export /
provider code branches on. -/
inductive TargetType where
  | domain
  | ip
  | cidr
  | url
deriving DecidableEq, Repr

/-- A target row as seen by the export service and the providers.  For CIDR
targets, `cidrHosts` is the host list produced by the standard-library
`ipaddress.ip_network(name).hosts()` call and `networkAddress` its
`network_address` (the library is external, so its output is environment
data). -/
structure TargetInfo where
  name : String
  type : TargetType
  cidrHosts : List String
  networkAddress : String
deriving DecidableEq, Repr

/-! ## C10: host-port URL candidates of the two providers -/

/-- From `DatabaseTargetProvider.iter_host_port_urls`
(apps/scan/providers/database_provider.py, lines 85-90): the candidate URL
list built for one `(host, port)` mapping before the blacklist check. -/
def dbHostPortCandidates (host : String) (port : Nat) : List String :=
  if port = 80 then ["http://" ++ host]
  else if port = 443 then ["https://" ++ host]
  else ["http://" ++ host ++ ":" ++ toString port,
        "https://" ++ host ++ ":" ++ toString port]

/-- From `SnapshotTargetProvider.iter_host_port_urls`
(apps/scan/providers/snapshot_provider.py, lines 82-90): the URLs yielded
for one unique `(host, port)` row of the snapshot table. -/
def snapHostPortCandidates (host : String) (port : Nat) : List String :=
  if port = 80 then ["http://" ++ host]
  else if port = 443 then ["https://" ++ host]
  else ["http://" ++ host ++ ":" ++ toString port,
        "https://" ++ host ++ ":" ++ toString port]

/-- C10: For every host-port record, the Inventory (database) provider and
the Snapshot provider generate exactly the same candidate URL list before
blacklist filtering: `["http://host"]` for port 80, `["https://host"]` for
port 443, and `["http://host:port", "https://host:port"]` (in that order)
for every other port. -/
theorem hostPortCandidates_providers_agree (host : String) (port : Nat) :
    dbHostPortCandidates host port = snapHostPortCandidates host port ∧
    dbHostPortCandidates host port =
      (if port = 80 then ["http://" ++ host]
       else if port = 443 then ["https://" ++ host]
       else ["http://" ++ host ++ ":" ++ toString port,
             "https://" ++ host ++ ":" ++ toString port]) :=
  ⟨rfl, rfl⟩

/-! ## C8: wildcard-DNS sampling gate of the permutation stage
(apps/scan/flows/subdomain_discovery_flow.py) -/

/-- `_SAMPLE_MULTIPLIER` (line 51). -/
def SAMPLE_MULTIPLIER : Nat := 100

/-- `_EXPANSION_THRESHOLD` (line 52). -/
def EXPANSION_THRESHOLD : Nat := 50

/-- `_SAMPLE_TIMEOUT` (line 53), seconds. -/
def SAMPLE_TIMEOUT : Nat := 7200

/-- `sample_size = before_count * _SAMPLE_MULTIPLIER` (line 367): how many
permuted names the gate pipes through `head -n` for resolution. -/
def sampleSize (beforeCount : Nat) : Nat := beforeCount * SAMPLE_MULTIPLIER

/-- `max_allowed = before_count * _EXPANSION_THRESHOLD` (line 368). -/
def maxAllowed (beforeCount : Nat) : Nat := beforeCount * EXPANSION_THRESHOLD

/-- Result of the sampling subprocess: the live count of the sample file,
or a timeout / OS error of the subprocess itself. -/
inductive SampleResult where
  | completed (sampleCount : Nat)
  | timedOut
  | osError
deriving DecidableEq, Repr

/-- What `_run_stage3_permutation` did, as observable on the scan context:
either it was disabled, or it skipped the permutation tool recording a
wildcard failure, or it ran the full permutation-plus-resolve pipeline
(succeeding or failing with the tool), or the sampling itself errored. -/
inductive Stage3Outcome where
  | notRun
  | skippedWildcard
  | ranPipeline (toolSucceeded : Bool)
  | failedSampling
deriving DecidableEq, Repr

/-- From `_run_stage3_permutation` (lines 354-451): the control flow of the
permutation stage.  `beforeCount` is `_count_lines(ctx.current_result)`,
the number of non-empty merged input lines; `sample` is the outcome of the
sampling pipeline run under `_SAMPLE_TIMEOUT`; `toolSucceeded` says whether
the full `subdomain_permutation_resolve` tool produced a result file. -/
def runStage3Permutation (enabled : Bool) (beforeCount : Nat)
    (sample : SampleResult) (toolSucceeded : Bool) : Stage3Outcome :=
  if !enabled then .notRun
  else
    match sample with
    | .completed s =>
        if s > maxAllowed beforeCount then .skippedWildcard
        else .ranPipeline toolSucceeded
    | .timedOut => .failedSampling
    | .osError => .failedSampling

/-- C8: with N non-empty merged input lines, the wildcard gate samples
N × 100 permutations under a 7200-second budget and runs the full
permutation-plus-resolve pipeline iff at most N × 50 of the sampled names
resolve live; when the live count exceeds N × 50, the permutation tool is
skipped and the step is recorded as a wildcard failure. -/
theorem wildcard_gate_spec (n s : Nat) (toolSucceeded : Bool) :
    sampleSize n = n * 100 ∧
    SAMPLE_TIMEOUT = 7200 ∧
    (runStage3Permutation true n (.completed s) toolSucceeded =
        .ranPipeline toolSucceeded ↔ s ≤ n * 50) ∧
    (runStage3Permutation true n (.completed s) toolSucceeded =
        .skippedWildcard ↔ n * 50 < s) := by
  refine ⟨rfl, rfl, ?_, ?_⟩ <;>
    · simp only [runStage3Permutation, maxAllowed, EXPANSION_THRESHOLD,
        Bool.not_true, Bool.false_eq_true, if_false]
      split <;> rename_i h <;> simp <;> omega

/-! ## C1: target export with fall-back chain
(apps/scan/services/target_export_service.py) -/

/-- The environment one `export_urls_with_fallback` call runs in: the URL
columns of the Endpoint and WebSite tables for the target, the blacklist
predicate of the filter that `create_export_service` installs
(`is_allowed`), and the target row (None when the target does not exist or
was soft-deleted). -/
structure ExportEnv where
  allowed : String → Bool
  endpointUrls : List String
  websiteUrls : List String
  target : Option TargetInfo

/-- Return shape of `TargetExportService.export_urls` (lines 184-257):
written count, raw iterated count, blacklist-filtered count, and the lines
written to the output file. -/
structure ExportUrlsResult where
  totalCount : Nat
  querysetCount : Nat
  filteredCount : Nat
  written : List String
deriving DecidableEq, Repr

/-- From `TargetExportService.export_urls` (lines 221-257): iterate the
queryset; count every row; skip falsy (empty) values; drop blacklisted
values into `filtered_count`; write the rest.  The Python loop accumulates
the same counts left to right; we recurse structurally, which yields the
identical counts and written lines. -/
def exportUrls (allowed : String → Bool) : List String → ExportUrlsResult
  | [] => ⟨0, 0, 0, []⟩
  | u :: rest =>
      let r := exportUrls allowed rest
      if u ≠ "" then
        if allowed u then
          ⟨r.totalCount + 1, r.querysetCount + 1, r.filteredCount, u :: r.written⟩
        else
          ⟨r.totalCount, r.querysetCount + 1, r.filteredCount + 1, r.written⟩
      else ⟨r.totalCount, r.querysetCount + 1, r.filteredCount, r.written⟩

/-- Return shape of `TargetExportService.generate_default_urls`. -/
structure DefaultUrlsResult where
  totalCount : Nat
  written : List String
deriving DecidableEq, Repr

/-- From `TargetExportService.generate_default_urls` (lines 259-363):
default URLs derived from the target itself, each line gated by
`_should_write_url` (the blacklist).  A missing target writes nothing.
For CIDR targets, when the filtered host expansion wrote nothing the code
falls back to the bare network address (the /32 and /128 special case).
We assume the CIDR string parses (its expansion is environment data in
`TargetInfo`); the `ValueError` re-raise path is not modelled. -/
def generateDefaultUrls (allowed : String → Bool)
    (target : Option TargetInfo) : DefaultUrlsResult :=
  match target with
  | none => ⟨0, []⟩
  | some t =>
      match t.type with
      | .domain =>
          let w := ["http://" ++ t.name, "https://" ++ t.name].filter allowed
          ⟨w.length, w⟩
      | .ip =>
          let w := ["http://" ++ t.name, "https://" ++ t.name].filter allowed
          ⟨w.length, w⟩
      | .cidr =>
          let w := (t.cidrHosts.flatMap
            (fun ip => ["http://" ++ ip, "https://" ++ ip])).filter allowed
          if w.length = 0 then
            let w2 := ["http://" ++ t.networkAddress,
                       "https://" ++ t.networkAddress].filter allowed
            ⟨w2.length, w2⟩
          else ⟨w.length, w⟩
      | .url =>
          if allowed t.name then ⟨1, [t.name]⟩ else ⟨0, []⟩

/-- The part of the `export_urls_with_fallback` return dict the claim talks
about: the count written and the source actually used. -/
structure FallbackResult where
  totalCount : Nat
  source : String
deriving DecidableEq, Repr

/-- The queryset `export_urls_with_fallback` builds for a source name
(lines 102-108): Endpoint URLs, WebSite URLs, or none for an unknown
source (which the loop skips with a warning). -/
def sourceQueryset (env : ExportEnv) (s : String) : Option (List String) :=
  if s = "endpoint" then some env.endpointUrls
  else if s = "website" then some env.websiteUrls
  else none

/-- From `export_urls_with_fallback`
(apps/scan/services/target_export_service.py, lines 49-153): walk the
`sources` list; the `"default"` source returns the generator's result
unconditionally; for a table-backed source return it when it wrote rows,
return it with count 0 when it had rows that were all blacklisted, and
fall through only when its queryset was empty; unknown source names are
skipped.  When every source is exhausted the result is `source = "none"`
with count 0. -/
def exportUrlsWithFallback (env : ExportEnv) : List String → FallbackResult
  | [] => ⟨0, "none"⟩
  | s :: rest =>
      if s = "default" then
        let r := generateDefaultUrls env.allowed env.target
        ⟨r.totalCount, "default"⟩
      else
        match sourceQueryset env s with
        | none => exportUrlsWithFallback env rest
        | some urls =>
            let r := exportUrls env.allowed urls
            if r.totalCount > 0 then ⟨r.totalCount, s⟩
            else if r.querysetCount > 0 then ⟨0, s⟩
            else exportUrlsWithFallback env rest

/-- The blacklist-filtered written count of one source, stated as a spec
quantity: non-empty rows of the source that pass the blacklist; for
`"default"`, the count the default generator writes. -/
def writtenCount (env : ExportEnv) (s : String) : Nat :=
  if s = "default" then (generateDefaultUrls env.allowed env.target).totalCount
  else match sourceQueryset env s with
    | none => 0
    | some urls => urls.countP (fun u => u ≠ "" && env.allowed u)

/-- The raw (pre-blacklist) count of one source, stated as a spec
quantity: the queryset row count for a table-backed source, and for
`"default"` the number of candidate URLs the generator derives from the
target before filtering. -/
def rawCount (env : ExportEnv) (s : String) : Nat :=
  if s = "default" then
    match env.target with
    | none => 0
    | some t =>
        match t.type with
        | .domain => 2
        | .ip => 2
        | .cidr => if t.cidrHosts.isEmpty then 2 else 2 * t.cidrHosts.length
        | .url => 1
  else match sourceQueryset env s with
    | none => 0
    | some urls => urls.length

/-- Claim C1 rendered as a walk, in the claim's own words: return the
first source whose blacklist-filtered written count is positive; a source
whose raw count is positive but whose written count is 0 is returned with
count 0 and stops the walk; only sources with raw count 0 are skipped. -/
def claimFallback (env : ExportEnv) : List String → FallbackResult
  | [] => ⟨0, "none"⟩
  | s :: rest =>
      if writtenCount env s > 0 then ⟨writtenCount env s, s⟩
      else if rawCount env s > 0 then ⟨0, s⟩
      else claimFallback env rest

/-- Claim C1 as amended: identical to `claimFallback` except that the
`"default"` source, once reached, always ends the walk and is returned
with its generated count, even when that count is 0. -/
def amendedFallback (env : ExportEnv) : List String → FallbackResult
  | [] => ⟨0, "none"⟩
  | s :: rest =>
      if s = "default" then ⟨writtenCount env "default", "default"⟩
      else if writtenCount env s > 0 then ⟨writtenCount env s, s⟩
      else if rawCount env s > 0 then ⟨0, s⟩
      else amendedFallback env rest

/-- Concrete environment refuting claim C1: the target row is gone (raw
default count 0), the Endpoint table has one exportable URL and nothing is
blacklisted. -/
def c1Env : ExportEnv :=
  { allowed := fun _ => true
    endpointUrls := ["http://a.example.com/x"]
    websiteUrls := []
    target := none }

theorem exportUrls_totalCount (allowed : String → Bool) (urls : List String) :
    (exportUrls allowed urls).totalCount =
      urls.countP (fun u => u ≠ "" && allowed u) := by
  induction urls with
  | nil => rfl
  | cons u rest ih =>
      simp only [exportUrls, List.countP_cons]
      by_cases hu : u = "" <;> by_cases ha : allowed u <;>
        simp [hu, ha, ih]

theorem exportUrls_querysetCount (allowed : String → Bool)
    (urls : List String) :
    (exportUrls allowed urls).querysetCount = urls.length := by
  induction urls with
  | nil => rfl
  | cons u rest ih =>
      simp only [exportUrls, List.length_cons]
      by_cases hu : u = "" <;> by_cases ha : allowed u <;>
        simp [hu, ha, ih]

/-- Counterexample to C1 as stated: with the sources `["default",
"endpoint"]` and the environment `c1Env`, the code returns the `default`
source with count 0 although its raw count is 0, instead of skipping to
the `endpoint` source that would have written one line. -/
theorem export_fallback_claim_false :
    (∀ s ∈ ["default", "endpoint"], s ∈ ["endpoint", "website", "default"]) ∧
    rawCount c1Env "default" = 0 ∧
    exportUrlsWithFallback c1Env ["default", "endpoint"] = ⟨0, "default"⟩ ∧
    claimFallback c1Env ["default", "endpoint"] = ⟨1, "endpoint"⟩ ∧
    exportUrlsWithFallback c1Env ["default", "endpoint"] ≠
      claimFallback c1Env ["default", "endpoint"] := by
  refine ⟨by decide, rfl, rfl, ?_, ?_⟩ <;>
    simp [claimFallback, writtenCount, rawCount, c1Env, sourceQueryset,
      exportUrlsWithFallback, generateDefaultUrls, exportUrls]

/-- C1 as amended: for every target (present or not) and every source list
over endpoint / website / default, the fall-back export behaves exactly as
the claim says for endpoint and website — first source with written count
> 0 wins, a source with raw count > 0 and written count 0 is returned with
total 0 and stops the walk, raw-count-0 sources are skipped — while the
default source, once reached, always ends the walk and is returned with
its generated count even when that count is 0. -/
theorem export_fallback_amended (env : ExportEnv) (sources : List String)
    (hs : ∀ s ∈ sources, s ∈ ["endpoint", "website", "default"]) :
    exportUrlsWithFallback env sources = amendedFallback env sources := by
  induction sources with
  | nil => rfl
  | cons s rest ih =>
      have hmem := hs s (List.mem_cons_self s rest)
      have hrest : ∀ x ∈ rest, x ∈ ["endpoint", "website", "default"] :=
        fun x hx => hs x (List.mem_cons_of_mem s hx)
      simp only [List.mem_cons, List.mem_singleton, List.not_mem_nil,
        or_false] at hmem
      rcases hmem with h | h | h <;> subst h
      · have ht := exportUrls_totalCount env.allowed env.endpointUrls
        have hq := exportUrls_querysetCount env.allowed env.endpointUrls
        simp only [exportUrlsWithFallback, amendedFallback, writtenCount,
          rawCount, sourceQueryset, String.reduceEq, reduceIte, ht, hq]
        split_ifs <;> first | rfl | exact ih hrest
      · have ht := exportUrls_totalCount env.allowed env.websiteUrls
        have hq := exportUrls_querysetCount env.allowed env.websiteUrls
        simp only [exportUrlsWithFallback, amendedFallback, writtenCount,
          rawCount, sourceQueryset, String.reduceEq, reduceIte, ht, hq]
        split_ifs <;> first | rfl | exact ih hrest
      · simp only [exportUrlsWithFallback, amendedFallback, writtenCount,
          String.reduceEq, reduceIte]

/-- Witness for `export_fallback_amended` at a concrete environment and
source chain. -/
theorem export_fallback_amended_witness :
    (∀ s ∈ ["endpoint", "default"], s ∈ ["endpoint", "website", "default"]) ∧
    exportUrlsWithFallback c1Env ["endpoint", "default"] =
      amendedFallback c1Env ["endpoint", "default"] :=
  ⟨by decide, export_fallback_amended c1Env ["endpoint", "default"] (by decide)⟩

/-! ## Keyed-list helpers

Database tables are modelled as lists of rows; these helpers speak about
the key column(s) of such a list. -/

/-- `l.any (fun x => κ x = k)`: does some element of `l` carry key `k`?
This is the existence test the repositories run before inserting. -/
def hasKey {α β : Type} [DecidableEq β] (κ : α → β) (l : List α) (k : β) :
    Bool :=
  l.any (fun x => decide (κ x = k))

theorem hasKey_iff_mem {α β : Type} [DecidableEq β] (κ : α → β)
    (l : List α) (k : β) : hasKey κ l k = true ↔ k ∈ l.map κ := by
  simp only [hasKey, List.any_eq_true, decide_eq_true_eq, List.mem_map]

theorem keyFilter_eq_nil {α β : Type} [DecidableEq β] (κ : α → β)
    (l : List α) (k : β) (h : k ∉ l.map κ) :
    l.filter (fun x => decide (κ x = k)) = [] := by
  induction l with
  | nil => rfl
  | cons a rest ih =>
      simp only [List.map_cons, List.mem_cons, not_or] at h
      simp only [List.filter_cons, decide_eq_true_eq]
      rw [if_neg (by simpa using Ne.symm h.1)]
      exact ih h.2

theorem keyFilter_singleton {α β : Type} [DecidableEq β] (κ : α → β)
    (l : List α) (x : α) (hnd : (l.map κ).Nodup) (hx : x ∈ l) :
    l.filter (fun a => decide (κ a = κ x)) = [x] := by
  induction l with
  | nil => exact absurd hx (List.not_mem_nil x)
  | cons a rest ih =>
      simp only [List.map_cons, List.nodup_cons] at hnd
      rcases List.mem_cons.mp hx with h | h
      · subst h
        have h0 := keyFilter_eq_nil κ rest (κ x) hnd.1
        simp [List.filter_cons, h0]
      · have hne : κ a ≠ κ x := by
          intro he
          exact hnd.1 (he ▸ List.mem_map_of_mem κ h)
        simp only [List.filter_cons, decide_eq_true_eq, if_neg hne]
        exact ih hnd.2 h

theorem getLast?_cons_of_some {α : Type} (l : List α) (a d : α)
    (h : l.getLast? = some d) : (a :: l).getLast? = some d := by
  cases l with
  | nil => simp at h
  | cons b rest => rw [List.getLast?_cons_cons]; exact h

/-! ## C2: website snapshot writer
(apps/asset/repositories/snapshot/website_snapshot_repository.py) -/

/-- `WebsiteSnapshotDTO` (apps/asset/dtos/snapshot/website_snapshot_dto.py). -/
structure WebsiteSnapshotDTO where
  scanId : Nat
  targetId : Nat
  url : String
  host : String
  title : String
  statusCode : Option Int
  contentLength : Option Int
  location : String
  webserver : String
  contentType : String
  tech : List String
  responseBody : String
  vhost : Option Bool
  responseHeaders : String
deriving DecidableEq, Repr

/-- A row of the `WebsiteSnapshot` table, with the columns
`save_snapshots` fills. -/
structure WebsiteSnapshotRow where
  scanId : Nat
  url : String
  host : String
  title : String
  statusCode : Option Int
  contentLength : Option Int
  location : String
  webserver : String
  contentType : String
  tech : List String
  responseBody : String
  vhost : Option Bool
  responseHeaders : String
deriving DecidableEq, Repr

/-- Natural key of a snapshot row: `(scan_id, url)` (repository docstring,
line 22; spec §3 keys snapshots by (scan, natural-key)). -/
def snapRowKey (r : WebsiteSnapshotRow) : Nat × String := (r.scanId, r.url)

/-- Natural key of a snapshot DTO. -/
def dtoSnapKey (d : WebsiteSnapshotDTO) : Nat × String := (d.scanId, d.url)

/-- The `WebsiteSnapshot(...)` constructor call of `save_snapshots`
(lines 44-58): `target_id` is dropped, `tech` falls back to `[]` and
`response_headers` to `''`. -/
def dtoToSnapshotRow (d : WebsiteSnapshotDTO) : WebsiteSnapshotRow :=
  { scanId := d.scanId
    url := d.url
    host := d.host
    title := d.title
    statusCode := d.statusCode
    contentLength := d.contentLength
    location := d.location
    webserver := d.webserver
    contentType := d.contentType
    tech := if d.tech.isEmpty then [] else d.tech
    responseBody := d.responseBody
    vhost := d.vhost
    responseHeaders := if d.responseHeaders = "" then "" else d.responseHeaders }

/-- Modelled from the spec: `deduplicate_for_bulk` (apps.common.utils.dedup)
is not under src/.  Per the spec ("the sink, before submitting to the
store, deduplicates by natural key, keeping the last occurrence") and the
repository docstring ("按 (scan_id, url) 去重，保留最后一条记录"), it keeps,
for each natural key, the last occurrence in submission order. -/
def deduplicateForBulk : List WebsiteSnapshotDTO → List WebsiteSnapshotDTO
  | [] => []
  | d :: rest =>
      if hasKey dtoSnapKey rest (dtoSnapKey d) then deduplicateForBulk rest
      else d :: deduplicateForBulk rest

/-- `bulk_create(..., ignore_conflicts=True)`: insert the rows in order,
silently skipping any row whose unique key is already present. -/
def bulkCreateIgnoreConflicts (table : List WebsiteSnapshotRow)
    (rows : List WebsiteSnapshotRow) : List WebsiteSnapshotRow :=
  rows.foldl
    (fun t r => if hasKey snapRowKey t (snapRowKey r) then t else t ++ [r])
    table

/-- From `DjangoWebsiteSnapshotRepository.save_snapshots` (lines 18-75):
an empty batch is a no-op; otherwise the batch is deduplicated by natural
key, converted to rows, and bulk-inserted ignoring conflicts. -/
def saveWebsiteSnapshots (table : List WebsiteSnapshotRow)
    (items : List WebsiteSnapshotDTO) : List WebsiteSnapshotRow :=
  if items.isEmpty then table
  else bulkCreateIgnoreConflicts table
    ((deduplicateForBulk items).map dtoToSnapshotRow)

theorem deduplicateForBulk_subset (items : List WebsiteSnapshotDTO) :
    ∀ d ∈ deduplicateForBulk items, d ∈ items := by
  induction items with
  | nil => simp [deduplicateForBulk]
  | cons x rest ih =>
      intro d hd
      simp only [deduplicateForBulk] at hd
      split at hd
      · exact List.mem_cons_of_mem x (ih d hd)
      · rcases List.mem_cons.mp hd with h | h
        · exact h ▸ List.mem_cons_self x rest
        · exact List.mem_cons_of_mem x (ih d h)

theorem deduplicateForBulk_keys_nodup (items : List WebsiteSnapshotDTO) :
    ((deduplicateForBulk items).map dtoSnapKey).Nodup := by
  induction items with
  | nil => simp [deduplicateForBulk]
  | cons x rest ih =>
      simp only [deduplicateForBulk]
      split
      · exact ih
      · rename_i hocc
        simp only [List.map_cons, List.nodup_cons]
        refine ⟨fun hmem => ?_, ih⟩
        rcases List.mem_map.mp hmem with ⟨d, hd, he⟩
        have : hasKey dtoSnapKey rest (dtoSnapKey x) = true := by
          rw [hasKey_iff_mem]
          exact he ▸ List.mem_map_of_mem dtoSnapKey
            (deduplicateForBulk_subset rest d hd)
        simp [this] at hocc

theorem deduplicateForBulk_mem_keys (items : List WebsiteSnapshotDTO)
    (k : Nat × String) :
    k ∈ (deduplicateForBulk items).map dtoSnapKey ↔
      k ∈ items.map dtoSnapKey := by
  induction items with
  | nil => simp [deduplicateForBulk]
  | cons x rest ih =>
      simp only [deduplicateForBulk]
      split
      · rename_i hocc
        rw [hasKey_iff_mem] at hocc
        simp only [List.map_cons, List.mem_cons, ih]
        constructor
        · exact Or.inr
        · rintro (h | h)
          · exact h ▸ hocc
          · exact h
      · simp only [List.map_cons, List.mem_cons, ih]

theorem deduplicateForBulk_last (items : List WebsiteSnapshotDTO) :
    ∀ d ∈ deduplicateForBulk items,
      (items.filter (fun e => decide (dtoSnapKey e = dtoSnapKey d))).getLast?
        = some d := by
  induction items with
  | nil => simp [deduplicateForBulk]
  | cons x rest ih =>
      intro d hd
      simp only [deduplicateForBulk] at hd
      split at hd
      · rename_i hocc
        rw [hasKey_iff_mem] at hocc
        by_cases hk : dtoSnapKey x = dtoSnapKey d
        · have hlast := ih d hd
          simp only [List.filter_cons, decide_eq_true_eq, if_pos hk]
          have hne : rest.filter
              (fun e => decide (dtoSnapKey e = dtoSnapKey d)) ≠ [] := by
            intro hnil
            rw [hnil] at hlast
            simp at hlast
          exact getLast?_cons_of_some _ x d hlast
        · simp only [List.filter_cons, decide_eq_true_eq, if_neg hk]
          exact ih d hd
      · rename_i hocc
        rcases List.mem_cons.mp hd with h | h
        · subst h
          simp only [List.filter_cons, decide_eq_true_eq, if_pos rfl]
          have : rest.filter
              (fun e => decide (dtoSnapKey e = dtoSnapKey d)) = [] := by
            apply keyFilter_eq_nil
            intro hmem
            exact hocc (by rw [hasKey_iff_mem]; exact hmem)
          rw [this]
          rfl
        · have hk : dtoSnapKey x ≠ dtoSnapKey d := by
            intro he
            apply hocc
            rw [hasKey_iff_mem, he]
            exact List.mem_map_of_mem dtoSnapKey
              (deduplicateForBulk_subset rest d h)
          simp only [List.filter_cons, decide_eq_true_eq, if_neg hk]
          exact ih d h

theorem bulkCreateIgnoreConflicts_eq (rows : List WebsiteSnapshotRow)
    (hnd : (rows.map snapRowKey).Nodup) (table : List WebsiteSnapshotRow) :
    bulkCreateIgnoreConflicts table rows =
      table ++ rows.filter
        (fun r => !(hasKey snapRowKey table (snapRowKey r))) := by
  induction rows generalizing table with
  | nil => simp [bulkCreateIgnoreConflicts]
  | cons r rest ih =>
      simp only [List.map_cons, List.nodup_cons] at hnd
      simp only [bulkCreateIgnoreConflicts, List.foldl_cons] at *
      by_cases hocc : hasKey snapRowKey table (snapRowKey r) = true
      · rw [if_pos hocc]
        rw [ih hnd.2 table]
        simp only [List.filter_cons, hocc, Bool.not_true, Bool.false_eq_true,
          if_false]
      · rw [if_neg hocc]
        rw [ih hnd.2 (table ++ [r])]
        have hfc : rest.filter
              (fun x => !(hasKey snapRowKey (table ++ [r]) (snapRowKey x)))
            = rest.filter
              (fun x => !(hasKey snapRowKey table (snapRowKey x))) := by
          apply List.filter_congr
          intro x hx
          have hne : snapRowKey r ≠ snapRowKey x := by
            intro he
            exact hnd.1 (he ▸ List.mem_map_of_mem snapRowKey hx)
          simp only [hasKey, List.any_append, List.any_cons, List.any_nil,
            Bool.or_false, decide_eq_true_eq]
          rw [decide_eq_false hne]
          simp
        rw [hfc]
        have hocc2 : hasKey snapRowKey table (snapRowKey r) = false := by
          simpa using hocc
        simp [List.filter_cons, hocc2]

/-- C2: for every snapshot table whose `(scan_id, url)` keys are unique and
every batch, `save_snapshots` (1) never modifies existing rows (it only
appends), (2) preserves key uniqueness, so the table holds exactly one row
per (scan, natural-key), (3) ends with exactly the old keys plus the
batch's keys, and (4) for a batch key that was not yet stored, the single
row holding it is built from the **last** DTO of the batch with that key. -/
theorem website_snapshot_save_spec (table : List WebsiteSnapshotRow)
    (items : List WebsiteSnapshotDTO)
    (hu : (table.map snapRowKey).Nodup) :
    (∃ added, saveWebsiteSnapshots table items = table ++ added) ∧
    ((saveWebsiteSnapshots table items).map snapRowKey).Nodup ∧
    (∀ k, k ∈ (saveWebsiteSnapshots table items).map snapRowKey ↔
      (k ∈ table.map snapRowKey ∨ k ∈ items.map dtoSnapKey)) ∧
    (∀ k, k ∉ table.map snapRowKey → k ∈ items.map dtoSnapKey →
      ∃ d, (items.filter (fun e => decide (dtoSnapKey e = k))).getLast?
          = some d ∧
        (saveWebsiteSnapshots table items).filter
          (fun r => decide (snapRowKey r = k)) = [dtoToSnapshotRow d]) := by
  by_cases hempty : items.isEmpty
  · have : items = [] := List.isEmpty_iff.mp hempty
    subst this
    simp only [saveWebsiteSnapshots, List.isEmpty_nil, if_true]
    refine ⟨⟨[], by simp⟩, hu, fun k => by simp, fun k hk hk2 => ?_⟩
    simp at hk2
  · have hrkeys : ∀ d, snapRowKey (dtoToSnapshotRow d) = dtoSnapKey d :=
      fun d => rfl
    have hmapkeys :
        ((deduplicateForBulk items).map dtoToSnapshotRow).map snapRowKey =
          (deduplicateForBulk items).map dtoSnapKey := by
      rw [List.map_map]
      rfl
    have hnd : (((deduplicateForBulk items).map dtoToSnapshotRow).map
        snapRowKey).Nodup := by
      rw [hmapkeys]
      exact deduplicateForBulk_keys_nodup items
    have heq := bulkCreateIgnoreConflicts_eq
      ((deduplicateForBulk items).map dtoToSnapshotRow) hnd table
    have hsave : saveWebsiteSnapshots table items =
        table ++ ((deduplicateForBulk items).map dtoToSnapshotRow).filter
          (fun r => !(hasKey snapRowKey table (snapRowKey r))) := by
      rw [saveWebsiteSnapshots, if_neg (by simp [hempty]), heq]
    refine ⟨⟨_, hsave⟩, ?_, ?_, ?_⟩
    · -- key uniqueness after the write
      rw [hsave, List.map_append]
      apply List.Nodup.append hu
      · exact List.Nodup.sublist
          (List.Sublist.map snapRowKey (List.filter_sublist _)) hnd
      · intro k hk1 hk2
        rcases List.mem_map.mp hk2 with ⟨r, hr, he⟩
        have := (List.mem_filter.mp hr).2
        simp only [Bool.not_eq_true'] at this
        rw [← he] at hk1
        rw [← hasKey_iff_mem] at hk1
        rw [this] at hk1
        exact Bool.false_ne_true hk1
    · -- resulting key set
      intro k
      rw [hsave, List.map_append, List.mem_append]
      constructor
      · rintro (h | h)
        · exact Or.inl h
        · rcases List.mem_map.mp h with ⟨r, hr, he⟩
          have hr1 := (List.mem_filter.mp hr).1
          rcases List.mem_map.mp hr1 with ⟨d, hd, he2⟩
          refine Or.inr ?_
          rw [← (deduplicateForBulk_mem_keys items k)]
          rw [← he, ← he2, hrkeys]
          exact List.mem_map_of_mem dtoSnapKey hd
      · rintro (h | h)
        · exact Or.inl h
        · by_cases htab : k ∈ table.map snapRowKey
          · exact Or.inl htab
          · refine Or.inr ?_
            rw [← deduplicateForBulk_mem_keys items k] at h
            rcases List.mem_map.mp h with ⟨d, hd, he⟩
            refine List.mem_map.mpr ⟨dtoToSnapshotRow d, ?_, he ▸ hrkeys d⟩
            refine List.mem_filter.mpr
              ⟨List.mem_map_of_mem dtoToSnapshotRow hd, ?_⟩
            simp only [Bool.not_eq_true']
            rw [← Bool.not_eq_true, hasKey_iff_mem]
            rw [hrkeys d, he]
            exact htab
    · -- last-occurrence data for freshly inserted keys
      intro k hk hkin
      rw [← deduplicateForBulk_mem_keys items k] at hkin
      rcases List.mem_map.mp hkin with ⟨d, hd, he⟩
      refine ⟨d, he ▸ deduplicateForBulk_last items d hd, ?_⟩
      rw [hsave, List.filter_append]
      rw [keyFilter_eq_nil snapRowKey table k hk, List.nil_append]
      rw [List.filter_filter]
      have hfilter :
          ((deduplicateForBulk items).map dtoToSnapshotRow).filter
            (fun r => decide (snapRowKey r = k) &&
              !(hasKey snapRowKey table (snapRowKey r))) =
          ((deduplicateForBulk items).map dtoToSnapshotRow).filter
            (fun r => decide (snapRowKey r = k)) := by
        apply List.filter_congr
        intro r _
        by_cases hr : snapRowKey r = k
        · rw [hr]
          have : hasKey snapRowKey table k = false := by
            rw [← Bool.not_eq_true, hasKey_iff_mem]
            exact hk
          simp [this]
        · simp [hr]
      rw [hfilter]
      have : k = snapRowKey (dtoToSnapshotRow d) := by rw [hrkeys d, he]
      rw [this]
      exact keyFilter_singleton snapRowKey _ (dtoToSnapshotRow d)
        (by rw [hmapkeys]; exact deduplicateForBulk_keys_nodup items)
        (List.mem_map_of_mem dtoToSnapshotRow hd)

/-- A small snapshot DTO builder for concrete instances. -/
def mkSnapDto (scanId : Nat) (url : String) (title : String) :
    WebsiteSnapshotDTO :=
  { scanId := scanId, targetId := 1, url := url, host := "h"
    title := title, statusCode := none, contentLength := none
    location := "", webserver := "", contentType := "", tech := []
    responseBody := "", vhost := none, responseHeaders := "" }

/-- Witness for `website_snapshot_save_spec`: a table with one stored row
and a batch carrying a duplicated key; the duplicate is resolved to the
last occurrence and the stored row survives untouched. -/
theorem website_snapshot_save_spec_witness :
    (([dtoToSnapshotRow (mkSnapDto 7 "u0" "old")].map snapRowKey).Nodup) ∧
    (∃ added,
      saveWebsiteSnapshots [dtoToSnapshotRow (mkSnapDto 7 "u0" "old")]
          [mkSnapDto 7 "u1" "first", mkSnapDto 7 "u0" "ignored",
           mkSnapDto 7 "u1" "last"] =
        [dtoToSnapshotRow (mkSnapDto 7 "u0" "old")] ++ added) ∧
    ((7, "u1") ∉ [dtoToSnapshotRow (mkSnapDto 7 "u0" "old")].map snapRowKey ∧
      ∃ d, (([mkSnapDto 7 "u1" "first", mkSnapDto 7 "u0" "ignored",
              mkSnapDto 7 "u1" "last"].filter
            (fun e => decide (dtoSnapKey e = (7, "u1")))).getLast? = some d ∧
        (saveWebsiteSnapshots [dtoToSnapshotRow (mkSnapDto 7 "u0" "old")]
            [mkSnapDto 7 "u1" "first", mkSnapDto 7 "u0" "ignored",
             mkSnapDto 7 "u1" "last"]).filter
          (fun r => decide (snapRowKey r = (7, "u1"))) =
            [dtoToSnapshotRow d])) := by
  have h := website_snapshot_save_spec
    [dtoToSnapshotRow (mkSnapDto 7 "u0" "old")]
    [mkSnapDto 7 "u1" "first", mkSnapDto 7 "u0" "ignored",
     mkSnapDto 7 "u1" "last"] (by decide)
  exact ⟨by decide, h.1, by decide, h.2.2.2 (7, "u1") (by decide) (by decide)⟩

/-! ## C3: WebSite asset upsert
(apps/asset/repositories/asset/website_repository.py) -/

/-- `WebSiteDTO` as consumed by `DjangoWebSiteRepository.bulk_upsert`:
the scalar string fields may be None (the repository coalesces them with
`or ''`). -/
structure WebSiteDTO where
  targetId : Nat
  url : String
  host : Option String
  location : Option String
  title : Option String
  webserver : Option String
  bodyPreview : Option String
  contentType : Option String
  tech : List String
  statusCode : Option Int
  contentLength : Option Int
  vhost : Option Bool
deriving DecidableEq, Repr

/-- A row of the `WebSite` asset table, with the columns `bulk_upsert`
writes. -/
structure WebSiteRow where
  targetId : Nat
  url : String
  host : String
  location : String
  title : String
  webserver : String
  bodyPreview : String
  contentType : String
  tech : List String
  statusCode : Option Int
  contentLength : Option Int
  vhost : Option Bool
deriving DecidableEq, Repr

/-- Unique key of a WebSite asset row: `unique_fields=['url', 'target']`
(line 61), i.e. `(target_id, url)`. -/
def websiteKey (r : WebSiteRow) : Nat × String := (r.targetId, r.url)

/-- The `WebSite(...)` constructor call of `bulk_upsert` (lines 38-54):
None string fields become `''`, an empty tech list stays `[]`. -/
def dtoToWebSiteRow (d : WebSiteDTO) : WebSiteRow :=
  { targetId := d.targetId
    url := d.url
    host := d.host.getD ""
    location := d.location.getD ""
    title := d.title.getD ""
    webserver := d.webserver.getD ""
    bodyPreview := d.bodyPreview.getD ""
    contentType := d.contentType.getD ""
    tech := if d.tech.isEmpty then [] else d.tech
    statusCode := d.statusCode
    contentLength := d.contentLength
    vhost := d.vhost }

/-- One conflicting-row update of `bulk_create(update_conflicts=True)`:
every field of `update_fields` (lines 61-65) — `host, location, title,
webserver, body_preview, content_type, tech, status_code, content_length,
vhost` — is overwritten with the incoming value. -/
def upsertUpdate (r w : WebSiteRow) : WebSiteRow :=
  { r with
    host := w.host
    location := w.location
    title := w.title
    webserver := w.webserver
    bodyPreview := w.bodyPreview
    contentType := w.contentType
    tech := w.tech
    statusCode := w.statusCode
    contentLength := w.contentLength
    vhost := w.vhost }

/-- Insert-or-update of one built row against the table. -/
def upsertOne (table : List WebSiteRow) (w : WebSiteRow) : List WebSiteRow :=
  if hasKey websiteKey table (websiteKey w) then
    table.map (fun r =>
      if websiteKey r = websiteKey w then upsertUpdate r w else r)
  else table ++ [w]

/-- From `DjangoWebSiteRepository.bulk_upsert` (lines 20-74): build a row
per DTO and upsert them in order on conflict of `(target_id, url)`. -/
def bulkUpsertWebsites (table : List WebSiteRow) (items : List WebSiteDTO) :
    List WebSiteRow :=
  (items.map dtoToWebSiteRow).foldl upsertOne table

/-- Two fingerprint-style observations of the same website URL used to
exercise the upsert path twice. -/
def c3Run1 : WebSiteDTO :=
  { targetId := 1, url := "https://x.example.com/", host := some "x.example.com"
    location := none, title := some "Run one", webserver := some "nginx"
    bodyPreview := none, contentType := none, tech := ["nginx"]
    statusCode := some 200, contentLength := some 100, vhost := none }

/-- The second run's record for the same `(target_id, url)` key. -/
def c3Run2 : WebSiteDTO :=
  { targetId := 1, url := "https://x.example.com/", host := some "x.example.com"
    location := none, title := some "Run two", webserver := some "Apache"
    bodyPreview := none, contentType := none, tech := ["WordPress"]
    statusCode := some 301, contentLength := some 222, vhost := none }

/-- Counterexample to C3 as stated: a FULL-mode run writing
`tech=["nginx"]` followed by a second FULL-mode run writing
`tech=["WordPress"]` through `bulk_upsert` leaves `tech=["WordPress"]` —
`"nginx"` is gone although it belongs to the union of the set-valued
fields observed across both runs, because `tech` is in `update_fields`
and is overwritten, not unioned. -/
theorem full_rerun_union_claim_false :
    (bulkUpsertWebsites (bulkUpsertWebsites [] [c3Run1]) [c3Run2]).map
        WebSiteRow.tech = [["WordPress"]] ∧
    "nginx" ∈ c3Run1.tech ∧
    "nginx" ∉ (["WordPress"] : List String) := by
  refine ⟨by rfl, by decide, by decide⟩

theorem upsertOne_key_unchanged (table : List WebSiteRow) (w : WebSiteRow)
    (r : WebSiteRow) (hr : r ∈ table) (hne : websiteKey r ≠ websiteKey w) :
    r ∈ upsertOne table w := by
  unfold upsertOne
  split
  · refine List.mem_map.mpr ⟨r, hr, ?_⟩
    rw [if_neg hne]
  · exact List.mem_append_left _ hr

theorem upsertUpdate_eq_of_key (r w : WebSiteRow)
    (hk : websiteKey r = websiteKey w) : upsertUpdate r w = w := by
  cases r
  cases w
  simp only [websiteKey, Prod.mk.injEq] at hk
  simp [upsertUpdate, hk.1, hk.2]

theorem upsertOne_keys (table : List WebSiteRow) (w : WebSiteRow) (k : Nat × String) :
    k ∈ (upsertOne table w).map websiteKey ↔
      (k ∈ table.map websiteKey ∨ k = websiteKey w) := by
  unfold upsertOne
  split
  · rename_i hocc
    rw [hasKey_iff_mem] at hocc
    rw [List.map_map]
    constructor
    · rintro hmem
      rcases List.mem_map.mp hmem with ⟨r, hr, he⟩
      simp only [Function.comp] at he
      by_cases hk : websiteKey r = websiteKey w
      · rw [if_pos hk] at he
        refine Or.inr ?_
        rw [← he, upsertUpdate_eq_of_key r w hk]
      · rw [if_neg hk] at he
        exact Or.inl (he ▸ List.mem_map_of_mem websiteKey hr)
    · rintro (h | h)
      · rcases List.mem_map.mp h with ⟨r, hr, he⟩
        refine List.mem_map.mpr ⟨r, hr, ?_⟩
        simp only [Function.comp]
        by_cases hk : websiteKey r = websiteKey w
        · rw [if_pos hk, upsertUpdate_eq_of_key r w hk, ← hk, he]
        · rw [if_neg hk, he]
      · rcases List.mem_map.mp hocc with ⟨r, hr, he⟩
        refine List.mem_map.mpr ⟨r, hr, ?_⟩
        simp only [Function.comp]
        rw [if_pos he, upsertUpdate_eq_of_key r w he, h]
  · simp only [List.map_append, List.map_cons, List.map_nil,
      List.mem_append, List.mem_cons, List.not_mem_nil, or_false]

theorem upsertOne_nodup (table : List WebSiteRow) (w : WebSiteRow)
    (hu : (table.map websiteKey).Nodup) :
    ((upsertOne table w).map websiteKey).Nodup := by
  unfold upsertOne
  split
  · rw [List.map_map]
    have : (table.map (websiteKey ∘ fun r =>
        if websiteKey r = websiteKey w then upsertUpdate r w else r)) =
        table.map websiteKey := by
      apply List.map_congr_left
      intro r _
      simp only [Function.comp]
      by_cases hk : websiteKey r = websiteKey w
      · rw [if_pos hk, upsertUpdate_eq_of_key r w hk, hk]
      · rw [if_neg hk]
    rw [this]
    exact hu
  · rename_i hocc
    rw [hasKey_iff_mem] at hocc
    rw [List.map_append]
    simp only [List.map_cons, List.map_nil]
    apply List.Nodup.append hu (List.nodup_singleton _)
    intro k hk1 hk2
    simp only [List.mem_singleton] at hk2
    subst hk2
    exact hocc hk1

theorem upsertUpdate_key (r w : WebSiteRow) :
    websiteKey (upsertUpdate r w) = websiteKey r := rfl

theorem upsertOne_other_mem (table : List WebSiteRow) (w : WebSiteRow)
    (r : WebSiteRow) (hr : r ∈ upsertOne table w)
    (hne : websiteKey r ≠ websiteKey w) : r ∈ table := by
  unfold upsertOne at hr
  split at hr
  · rcases List.mem_map.mp hr with ⟨x, hx, he⟩
    by_cases hk : websiteKey x = websiteKey w
    · rw [if_pos hk] at he
      rw [← he, upsertUpdate_key, hk] at hne
      exact absurd rfl hne
    · rw [if_neg hk] at he
      exact he ▸ hx
  · rcases List.mem_append.mp hr with h | h
    · exact h
    · simp only [List.mem_singleton] at h
      subst h
      exact absurd rfl hne

theorem upsertOne_filter_key (table : List WebSiteRow) (w : WebSiteRow)
    (hu : (table.map websiteKey).Nodup) :
    (upsertOne table w).filter
      (fun r => decide (websiteKey r = websiteKey w)) = [w] := by
  have hnd := upsertOne_nodup table w hu
  have hmem : w ∈ upsertOne table w ∨
      ∃ r ∈ table, websiteKey r = websiteKey w ∧
        upsertOne table w =
          table.map (fun x =>
            if websiteKey x = websiteKey w then upsertUpdate x w else x) := by
    unfold upsertOne
    split
    · rename_i hocc
      rw [hasKey_iff_mem] at hocc
      rcases List.mem_map.mp hocc with ⟨r, hr, he⟩
      exact Or.inr ⟨r, hr, he, rfl⟩
    · exact Or.inl (List.mem_append_right _ (List.mem_singleton_self w))
  rcases hmem with h | ⟨r, hr, he, hform⟩
  · exact keyFilter_singleton websiteKey _ w hnd h
  · have hw : w ∈ upsertOne table w := by
      rw [hform]
      refine List.mem_map.mpr ⟨r, hr, ?_⟩
      rw [if_pos he, upsertUpdate_eq_of_key r w he]
    exact keyFilter_singleton websiteKey _ w hnd hw

/-- C3 as amended: after a second FULL-mode run writes the same
`(target_id, url)` key through `bulk_upsert`, the single resulting asset
row equals the second run's record in **every** updated field — the
set-valued `tech` array included, which therefore holds the
latest-written value rather than the union of both runs; rows with other
keys are untouched.  (The union-merge of set-valued fields exists only on
the fingerprint-detect merge path, not on this upsert path.) -/
theorem full_rerun_last_writer_wins (table : List WebSiteRow)
    (d₁ d₂ : WebSiteDTO) (hu : (table.map websiteKey).Nodup)
    (hk : d₁.targetId = d₂.targetId ∧ d₁.url = d₂.url) :
    ((bulkUpsertWebsites (bulkUpsertWebsites table [d₁]) [d₂]).filter
        (fun r => decide (websiteKey r = websiteKey (dtoToWebSiteRow d₂))) =
      [dtoToWebSiteRow d₂]) ∧
    (∀ r ∈ bulkUpsertWebsites (bulkUpsertWebsites table [d₁]) [d₂],
      websiteKey r ≠ websiteKey (dtoToWebSiteRow d₂) → r ∈ table) := by
  have h1 : bulkUpsertWebsites table [d₁] = upsertOne table (dtoToWebSiteRow d₁) := rfl
  have h2 : bulkUpsertWebsites (bulkUpsertWebsites table [d₁]) [d₂] =
      upsertOne (upsertOne table (dtoToWebSiteRow d₁)) (dtoToWebSiteRow d₂) := rfl
  have hnd1 := upsertOne_nodup table (dtoToWebSiteRow d₁) hu
  constructor
  · rw [h2]
    exact upsertOne_filter_key _ (dtoToWebSiteRow d₂) hnd1
  · intro r hr hne
    rw [h2] at hr
    have hkeq : websiteKey (dtoToWebSiteRow d₁) =
        websiteKey (dtoToWebSiteRow d₂) := by
      simp [websiteKey, dtoToWebSiteRow, hk.1, hk.2]
    have hmid := upsertOne_other_mem _ _ r hr hne
    exact upsertOne_other_mem _ _ r hmid (by rw [hkeq]; exact hne)

/-- Witness for `full_rerun_last_writer_wins` on the two concrete runs. -/
theorem full_rerun_last_writer_wins_witness :
    (([] : List WebSiteRow).map websiteKey).Nodup ∧
    (c3Run1.targetId = c3Run2.targetId ∧ c3Run1.url = c3Run2.url) ∧
    ((bulkUpsertWebsites (bulkUpsertWebsites [] [c3Run1]) [c3Run2]).filter
        (fun r => decide (websiteKey r = websiteKey (dtoToWebSiteRow c3Run2))) =
      [dtoToWebSiteRow c3Run2]) :=
  ⟨by decide, ⟨rfl, rfl⟩,
    (full_rerun_last_writer_wins [] c3Run1 c3Run2 (by decide) ⟨rfl, rfl⟩).1⟩

/-! ## C4: fingerprint merge-but-only-fill-empty
(apps/scan/tasks/fingerprint_detect/run_xingfinger_task.py) -/

/-- A record parsed by `parse_xingfinger_line` (lines 23-55): url, techs
(the comma-split `cms` field), server, title, status code and length. -/
structure XingRecord where
  url : String
  techs : List String
  server : String
  title : String
  statusCode : Option Int
  contentLength : Option Int
deriving DecidableEq, Repr

/-- From `parse_xingfinger_line` (lines 41-43): the `cms` field split on
commas, entries stripped, empties dropped. -/
def parseXingfingerTechs (cms : String) : List String :=
  ((cms.splitOn ",").map String.trim).filter (fun t => decide (t ≠ ""))

/-- Keep-first deduplication of a string list.  The SQL
`ARRAY(SELECT DISTINCT unnest(...))` leaves the element order unspecified;
we fix first-occurrence order and state the claims up to membership. -/
def dedupKeepFirst : List String → List String
  | [] => []
  | x :: rest => x :: (dedupKeepFirst rest).filter (fun y => decide (y ≠ x))

/-- The `tech` update expression of `bulk_merge_website_fields`
(lines 96-99): duplicate-free union of the stored array (NULL coalesced to
`[]`) with the record's techs. -/
def mergedTech (old new : List String) : List String :=
  dedupKeepFirst (old ++ new)

/-- The UPDATE branch of `bulk_merge_website_fields` (lines 94-107): tech
is unioned; title, webserver, status_code and content_length are replaced
only when the stored value is NULL or empty. -/
def mergeWebsiteRecord (r : WebSiteRow) (rec : XingRecord) : WebSiteRow :=
  { r with
    tech := mergedTech r.tech rec.techs
    title := if r.title = "" then rec.title else r.title
    webserver := if r.webserver = "" then rec.server else r.webserver
    statusCode := match r.statusCode with
      | none => rec.statusCode
      | some v => some v
    contentLength := match r.contentLength with
      | none => rec.contentLength
      | some v => some v }

/-- The INSERT branch of `bulk_merge_website_fields` (lines 119-135): a
fresh row built from the record; `host` comes from `urlparse(url).hostname`
(standard library, abstracted as `hostOf`), the remaining columns get the
empty defaults of the INSERT statement. -/
def insertWebsiteFromRecord (targetId : Nat) (hostOf : String → String)
    (rec : XingRecord) : WebSiteRow :=
  { targetId := targetId
    url := rec.url
    host := hostOf rec.url
    location := ""
    title := rec.title
    webserver := rec.server
    bodyPreview := ""
    contentType := ""
    tech := rec.techs
    statusCode := rec.statusCode
    contentLength := rec.contentLength
    vhost := none }

/-- From `bulk_merge_website_fields` (lines 58-144): per record, run the
merge UPDATE keyed on `(target_id, url)`; when no row matched, INSERT a
new row from the record. -/
def bulkMergeWebsiteFields (targetId : Nat) (hostOf : String → String)
    (table : List WebSiteRow) (records : List XingRecord) :
    List WebSiteRow :=
  records.foldl
    (fun t rec =>
      if hasKey websiteKey t (targetId, rec.url) then
        t.map (fun r =>
          if websiteKey r = (targetId, rec.url) then mergeWebsiteRecord r rec
          else r)
      else t ++ [insertWebsiteFromRecord targetId hostOf rec])
    table

theorem dedupKeepFirst_mem (s : String) :
    ∀ l : List String, s ∈ dedupKeepFirst l ↔ s ∈ l := by
  intro l
  induction l with
  | nil => simp [dedupKeepFirst]
  | cons x rest ih =>
      simp only [dedupKeepFirst, List.mem_cons, List.mem_filter,
        decide_eq_true_eq, ih]
      constructor
      · rintro (h | ⟨h, _⟩)
        · exact Or.inl h
        · exact Or.inr h
      · rintro (h | h)
        · exact Or.inl h
        · by_cases hx : s = x
          · exact Or.inl hx
          · exact Or.inr ⟨h, hx⟩

theorem dedupKeepFirst_nodup : ∀ l : List String, (dedupKeepFirst l).Nodup := by
  intro l
  induction l with
  | nil => simp [dedupKeepFirst]
  | cons x rest ih =>
      simp only [dedupKeepFirst, List.nodup_cons]
      refine ⟨fun hmem => ?_, List.Nodup.filter _ ih⟩
      have := (List.mem_filter.mp hmem).2
      simp at this

theorem mergeWebsiteRecord_key (r : WebSiteRow) (rec : XingRecord) :
    websiteKey (mergeWebsiteRecord r rec) = websiteKey r := rfl

theorem mergeMap_keys (targetId : Nat) (rec : XingRecord)
    (table : List WebSiteRow) :
    (table.map (fun r =>
      if websiteKey r = (targetId, rec.url) then mergeWebsiteRecord r rec
      else r)).map websiteKey = table.map websiteKey := by
  rw [List.map_map]
  apply List.map_congr_left
  intro r _
  simp only [Function.comp]
  by_cases hk : websiteKey r = (targetId, rec.url)
  · rw [if_pos hk, mergeWebsiteRecord_key]
  · rw [if_neg hk]

/-- C4: for every fingerprint record merged into the WebSite table keyed
by `(target_id, url)`: when a row with the key exists, the one resulting
row for the key has `tech` equal to the duplicate-free union of the stored
techs and the record's techs, and title / webserver / status_code /
content_length are taken from the record exactly when the stored value is
NULL or empty and kept otherwise, while rows with other keys are
untouched; when no row with the key exists, a new row is created from the
record. -/
theorem fingerprint_merge_spec (targetId : Nat) (hostOf : String → String)
    (table : List WebSiteRow) (rec : XingRecord)
    (hu : (table.map websiteKey).Nodup) :
    (∀ r ∈ table, websiteKey r = (targetId, rec.url) →
      ((bulkMergeWebsiteFields targetId hostOf table [rec]).filter
          (fun x => decide (websiteKey x = (targetId, rec.url))) =
        [mergeWebsiteRecord r rec]) ∧
      (∀ s, s ∈ (mergeWebsiteRecord r rec).tech ↔
        (s ∈ r.tech ∨ s ∈ rec.techs)) ∧
      (mergeWebsiteRecord r rec).tech.Nodup ∧
      (r.title ≠ "" → (mergeWebsiteRecord r rec).title = r.title) ∧
      (r.title = "" → (mergeWebsiteRecord r rec).title = rec.title) ∧
      (r.webserver ≠ "" → (mergeWebsiteRecord r rec).webserver = r.webserver) ∧
      (r.webserver = "" → (mergeWebsiteRecord r rec).webserver = rec.server) ∧
      (∀ v, r.statusCode = some v →
        (mergeWebsiteRecord r rec).statusCode = some v) ∧
      (r.statusCode = none →
        (mergeWebsiteRecord r rec).statusCode = rec.statusCode) ∧
      (∀ v, r.contentLength = some v →
        (mergeWebsiteRecord r rec).contentLength = some v) ∧
      (r.contentLength = none →
        (mergeWebsiteRecord r rec).contentLength = rec.contentLength)) ∧
    (∀ x ∈ bulkMergeWebsiteFields targetId hostOf table [rec],
      websiteKey x ≠ (targetId, rec.url) → x ∈ table) ∧
    ((∀ r ∈ table, websiteKey r ≠ (targetId, rec.url)) →
      bulkMergeWebsiteFields targetId hostOf table [rec] =
        table ++ [insertWebsiteFromRecord targetId hostOf rec]) := by
  refine ⟨?_, ?_, ?_⟩
  · intro r hr hkey
    have hocc : hasKey websiteKey table (targetId, rec.url) = true := by
      rw [hasKey_iff_mem]
      exact hkey ▸ List.mem_map_of_mem websiteKey hr
    have ht2 : bulkMergeWebsiteFields targetId hostOf table [rec] =
        table.map (fun x =>
          if websiteKey x = (targetId, rec.url) then mergeWebsiteRecord x rec
          else x) := by
      simp only [bulkMergeWebsiteFields, List.foldl_cons, List.foldl_nil,
        hocc, if_true]
    refine ⟨?_, ?_, dedupKeepFirst_nodup _, ?_, ?_, ?_, ?_, ?_, ?_, ?_, ?_⟩
    · rw [ht2]
      have hnd2 : ((table.map (fun x =>
          if websiteKey x = (targetId, rec.url) then mergeWebsiteRecord x rec
          else x)).map websiteKey).Nodup := by
        rw [mergeMap_keys]
        exact hu
      have hmem2 : mergeWebsiteRecord r rec ∈ table.map (fun x =>
          if websiteKey x = (targetId, rec.url) then mergeWebsiteRecord x rec
          else x) :=
        List.mem_map.mpr ⟨r, hr, by rw [if_pos hkey]⟩
      have := keyFilter_singleton websiteKey _ (mergeWebsiteRecord r rec)
        hnd2 hmem2
      rw [mergeWebsiteRecord_key, hkey] at this
      exact this
    · intro s
      simp only [mergeWebsiteRecord, mergedTech, dedupKeepFirst_mem,
        List.mem_append]
    · intro h
      simp [mergeWebsiteRecord, h]
    · intro h
      simp [mergeWebsiteRecord, h]
    · intro h
      simp [mergeWebsiteRecord, h]
    · intro h
      simp [mergeWebsiteRecord, h]
    · intro v h
      simp [mergeWebsiteRecord, h]
    · intro h
      simp [mergeWebsiteRecord, h]
    · intro v h
      simp [mergeWebsiteRecord, h]
    · intro h
      simp [mergeWebsiteRecord, h]
  · intro x hx hne
    simp only [bulkMergeWebsiteFields, List.foldl_cons, List.foldl_nil] at hx
    split at hx
    · rcases List.mem_map.mp hx with ⟨y, hy, he⟩
      by_cases hk : websiteKey y = (targetId, rec.url)
      · rw [if_pos hk] at he
        rw [← he, mergeWebsiteRecord_key, hk] at hne
        exact absurd rfl hne
      · rw [if_neg hk] at he
        exact he ▸ hy
    · rcases List.mem_append.mp hx with h | h
      · exact h
      · simp only [List.mem_singleton] at h
        subst h
        exact absurd rfl hne
  · intro hnone
    have hocc : hasKey websiteKey table (targetId, rec.url) = false := by
      rw [← Bool.not_eq_true, hasKey_iff_mem]
      intro hmem
      rcases List.mem_map.mp hmem with ⟨r, hr, he⟩
      exact hnone r hr he
    simp only [bulkMergeWebsiteFields, List.foldl_cons, List.foldl_nil,
      hocc, Bool.false_eq_true, if_false]

/-- The stored row of end-to-end scenario 5 of the spec: empty title,
`tech=["nginx"]`, NULL status code. -/
def c4Row : WebSiteRow :=
  { targetId := 1, url := "https://x/", host := "x", location := ""
    title := "", webserver := "", bodyPreview := "", contentType := ""
    tech := ["nginx"], statusCode := none, contentLength := none
    vhost := none }

/-- The tool record of scenario 5: cms "WordPress, jQuery", title "Home",
status code 200. -/
def c4Rec : XingRecord :=
  { url := "https://x/", techs := parseXingfingerTechs "WordPress, jQuery"
    server := "", title := "Home", statusCode := some 200
    contentLength := some 642831 }

/-- Witness for `fingerprint_merge_spec` on scenario 5 of the spec: the
empty title is filled with "Home", the NULL status code with 200, and
`tech` becomes the union of `["nginx"]` and the parsed
`["WordPress", "jQuery"]`. -/
theorem fingerprint_merge_spec_witness :
    (([c4Row].map websiteKey).Nodup) ∧
    c4Row ∈ [c4Row] ∧
    websiteKey c4Row = (1, c4Rec.url) ∧
    ((bulkMergeWebsiteFields 1 (fun _ => "x") [c4Row] [c4Rec]).filter
        (fun x => decide (websiteKey x = (1, c4Rec.url))) =
      [mergeWebsiteRecord c4Row c4Rec]) ∧
    ("WordPress" ∈ (mergeWebsiteRecord c4Row c4Rec).tech ↔
      ("WordPress" ∈ c4Row.tech ∨ "WordPress" ∈ c4Rec.techs)) ∧
    (c4Row.title = "" → (mergeWebsiteRecord c4Row c4Rec).title = c4Rec.title) ∧
    (c4Row.statusCode = none →
      (mergeWebsiteRecord c4Row c4Rec).statusCode = c4Rec.statusCode) := by
  have h := fingerprint_merge_spec 1 (fun _ => "x") [c4Row] c4Rec (by decide)
  have h1 := h.1 c4Row (by decide) (by decide)
  exact ⟨by decide, by decide, by decide, h1.1, h1.2.1 "WordPress",
    h1.2.2.2.2.1, h1.2.2.2.2.2.2.2.2.1⟩

/-! ## C5: the sink drops batches of deleted scans
(apps/asset/services/snapshot/endpoint_snapshots_service.py and
host_port_mapping_snapshots_service.py) -/

/-- `EndpointSnapshotDTO` (apps/asset/dtos/snapshot/endpoint_snapshot_dto.py). -/
structure EndpointSnapshotDTO where
  scanId : Nat
  targetId : Nat
  url : String
  host : String
  title : String
  statusCode : Option Int
  contentLength : Option Int
  location : String
  webserver : String
  contentType : String
  tech : List String
  responseBody : String
  vhost : Option Bool
  matchedGfPatterns : List String
  responseHeaders : String
deriving DecidableEq, Repr

/-- Modelled from the spec: `HostPortMappingSnapshotDTO` is not under src/;
spec §3 keys host-port mappings by (target, host, ip, port). -/
structure HostPortMappingSnapshotDTO where
  scanId : Nat
  targetId : Nat
  host : String
  ip : String
  port : Nat
deriving DecidableEq, Repr

/-- From `EndpointSnapshotsService.save_and_sync` (lines 30-69): an empty
batch returns; then the service asks `DjangoScanRepository().exists` for
the batch's `scan_id` (the scan table query, modelled by the `scanLive`
predicate) and, when the scan is gone, logs and returns without touching
either store; otherwise it runs the snapshot write and the asset upsert,
here abstracted as one state transformer `write` that may fail. -/
def endpointSaveAndSync {σ : Type} (scanLive : Nat → Bool)
    (write : σ → List EndpointSnapshotDTO → Except String σ)
    (state : σ) (items : List EndpointSnapshotDTO) : Except String σ :=
  match items with
  | [] => .ok state
  | item :: _ =>
      if scanLive item.scanId then write state items
      else .ok state

/-- From `HostPortMappingSnapshotsService.save_and_sync` (lines 20-70):
identical guard structure around its own snapshot write and asset
insert-ignore. -/
def hostPortSaveAndSync {σ : Type} (scanLive : Nat → Bool)
    (write : σ → List HostPortMappingSnapshotDTO → Except String σ)
    (state : σ) (items : List HostPortMappingSnapshotDTO) :
    Except String σ :=
  match items with
  | [] => .ok state
  | item :: _ =>
      if scanLive item.scanId then write state items
      else .ok state

/-- C5: for every batch handed to the snapshot-plus-asset sink whose scan
no longer exists at the moment of the write, both `save_and_sync`
implementations drop the whole batch — the store state is returned
unchanged, no matter what the snapshot/asset write would have done — and
return normally instead of raising. -/
theorem sink_drops_deleted_scan_batches {σ : Type}
    (scanLive : Nat → Bool)
    (writeE : σ → List EndpointSnapshotDTO → Except String σ)
    (writeH : σ → List HostPortMappingSnapshotDTO → Except String σ)
    (state : σ)
    (eItem : EndpointSnapshotDTO) (eRest : List EndpointSnapshotDTO)
    (hItem : HostPortMappingSnapshotDTO)
    (hRest : List HostPortMappingSnapshotDTO)
    (hE : scanLive eItem.scanId = false)
    (hH : scanLive hItem.scanId = false) :
    endpointSaveAndSync scanLive writeE state (eItem :: eRest) = .ok state ∧
    hostPortSaveAndSync scanLive writeH state (hItem :: hRest) = .ok state := by
  constructor
  · simp [endpointSaveAndSync, hE]
  · simp [hostPortSaveAndSync, hH]

/-- Witness for `sink_drops_deleted_scan_batches`: a deleted scan id 9,
against write functions that would corrupt the state or raise if they ran. -/
theorem sink_drops_deleted_scan_batches_witness :
    ((fun _ => false) : Nat → Bool) 9 = false ∧
    endpointSaveAndSync (fun _ => false)
      (fun _ _ => .error "must not run") (0 : Nat)
      [{ scanId := 9, targetId := 1, url := "http://a", host := "a"
         title := "", statusCode := none, contentLength := none
         location := "", webserver := "", contentType := "", tech := []
         responseBody := "", vhost := none, matchedGfPatterns := []
         responseHeaders := "" }] = .ok 0 ∧
    hostPortSaveAndSync (fun _ => false)
      (fun _ _ => .error "must not run") (0 : Nat)
      [{ scanId := 9, targetId := 1, host := "a", ip := "10.0.0.1"
         port := 8080 }] = .ok 0 := by
  have h := sink_drops_deleted_scan_batches (σ := Nat) (fun _ => false)
    (fun _ _ => .error "must not run") (fun _ _ => .error "must not run") 0
    { scanId := 9, targetId := 1, url := "http://a", host := "a"
      title := "", statusCode := none, contentLength := none
      location := "", webserver := "", contentType := "", tech := []
      responseBody := "", vhost := none, matchedGfPatterns := []
      responseHeaders := "" } []
    { scanId := 9, targetId := 1, host := "a", ip := "10.0.0.1"
      port := 8080 } [] rfl rfl
  exact ⟨rfl, h.1, h.2⟩

/-! ## C6 and C7: batched writer retry and data-error policy
(apps/scan/tasks/url_fetch/run_and_stream_save_urls_task.py) -/

/-- Outcome of one `_save_batch` attempt, as classified by the handlers of
`_save_batch_with_retry`: a successful save with its statistics, an
`IntegrityError`, a transient database error (`OperationalError`,
`DatabaseError`, `InterfaceError`), or any other exception. -/
inductive SaveOutcome where
  | ok (createdEndpoints skippedFailed : Nat)
  | integrityError
  | transientError
  | otherError
deriving DecidableEq, Repr

/-- How `_save_batch_with_retry` ends: it returns a result dict (success
flag plus counters), or it re-raises a transient error after exhausting
the attempts, or it re-raises an unknown exception. -/
inductive RetryOutcome where
  | returned (success : Bool) (createdEndpoints skippedFailed : Nat)
  | raisedTransient
  | raisedOther
deriving DecidableEq, Repr

/-- The observable behaviour of one `_save_batch_with_retry` call: its
outcome and the `time.sleep` waits (in seconds) it performed. -/
structure RetryTrace where
  outcome : RetryOutcome
  waits : List Nat
deriving DecidableEq, Repr

/-- The attempt loop of `_save_batch_with_retry` (lines 319-367), from
attempt number `attempt` on: a success returns immediately; an
`IntegrityError` discards the batch and returns `success=False` without
retrying; a transient error sleeps `2 ** attempt` seconds and retries
unless this was the last attempt, in which case it re-raises; any other
exception re-raises at once.  When the loop falls through (only possible
with `max_retries = 0`) the function returns the fallback
`success=False` dict. -/
def saveBatchRetryGo (attemptOutcome : Nat → SaveOutcome)
    (maxRetries attempt : Nat) (waits : List Nat) : RetryTrace :=
  if _h : maxRetries ≤ attempt then ⟨.returned false 0 0, waits⟩
  else
    match attemptOutcome attempt with
    | .ok c s => ⟨.returned true c s, waits⟩
    | .integrityError => ⟨.returned false 0 0, waits⟩
    | .transientError =>
        if attempt < maxRetries - 1 then
          saveBatchRetryGo attemptOutcome maxRetries (attempt + 1)
            (waits ++ [2 ^ attempt])
        else ⟨.raisedTransient, waits⟩
    | .otherError => ⟨.raisedOther, waits⟩
termination_by maxRetries - attempt
decreasing_by omega

/-- `_save_batch_with_retry` (lines 293-367) with its attempt outcomes
abstracted: `attemptOutcome n` is what the n-th `_save_batch` call would
do. -/
def saveBatchWithRetry (attemptOutcome : Nat → SaveOutcome)
    (maxRetries : Nat) : RetryTrace :=
  saveBatchRetryGo attemptOutcome maxRetries 0 []

/-- Counterexample to C6 as stated: when every attempt fails transiently
under the default `max_retries = 3`, the writer sleeps 1 s and 2 s only —
there are just two backoff waits before the third and last attempt
re-raises, so the claimed wait sequence 1 s, 2 s, 4 s never happens. -/
theorem retry_backoff_claim_false :
    saveBatchWithRetry (fun _ => .transientError) 3 =
      ⟨.raisedTransient, [1, 2]⟩ ∧
    ([1, 2] : List Nat) ≠ [1, 2, 4] := by
  constructor
  · unfold saveBatchWithRetry
    unfold saveBatchRetryGo
    rw [dif_neg (by omega)]
    show (if 0 < 3 - 1 then saveBatchRetryGo _ 3 1 [2 ^ 0] else _) = _
    rw [if_pos (by omega)]
    unfold saveBatchRetryGo
    rw [dif_neg (by omega)]
    show (if 1 < 3 - 1 then saveBatchRetryGo _ 3 2 ([2 ^ 0] ++ [2 ^ 1])
      else _) = _
    rw [if_pos (by omega)]
    unfold saveBatchRetryGo
    rw [dif_neg (by omega)]
    show (if 2 < 3 - 1 then _ else
      RetryTrace.mk .raisedTransient ([2 ^ 0] ++ [2 ^ 1])) = _
    rw [if_neg (by omega)]
    rfl
  · decide

/-- C6 as amended: on transient storage errors the batch is retried with
exponential backoff waits of 1 s then 2 s, making up to 3 attempts by
default; the writer raises to the caller only after all 3 attempts have
failed, and an attempt that succeeds after j transient failures returns
normally having waited `2^0 .. 2^(j-1)` seconds. -/
theorem retry_backoff_amended (attemptOutcome : Nat → SaveOutcome) :
    ((∀ i, i < 3 → attemptOutcome i = .transientError) →
      saveBatchWithRetry attemptOutcome 3 = ⟨.raisedTransient, [1, 2]⟩) ∧
    (∀ j c s, j < 3 → attemptOutcome j = .ok c s →
      (∀ i, i < j → attemptOutcome i = .transientError) →
      saveBatchWithRetry attemptOutcome 3 =
        ⟨.returned true c s, (List.range j).map (2 ^ ·)⟩) := by
  constructor
  · intro h
    have h0 := h 0 (by omega)
    have h1 := h 1 (by omega)
    have h2 := h 2 (by omega)
    unfold saveBatchWithRetry
    unfold saveBatchRetryGo
    rw [dif_neg (by omega), h0, if_pos (by omega)]
    unfold saveBatchRetryGo
    rw [dif_neg (by omega), h1, if_pos (by omega)]
    unfold saveBatchRetryGo
    rw [dif_neg (by omega), h2, if_neg (by omega)]
    rfl
  · intro j c s hj hok hbefore
    interval_cases j
    · unfold saveBatchWithRetry saveBatchRetryGo
      rw [dif_neg (by omega), hok]
      rfl
    · have h0 := hbefore 0 (by omega)
      unfold saveBatchWithRetry saveBatchRetryGo
      rw [dif_neg (by omega), h0, if_pos (by omega)]
      unfold saveBatchRetryGo
      rw [dif_neg (by omega), hok]
      rfl
    · have h0 := hbefore 0 (by omega)
      have h1 := hbefore 1 (by omega)
      unfold saveBatchWithRetry saveBatchRetryGo
      rw [dif_neg (by omega), h0, if_pos (by omega)]
      unfold saveBatchRetryGo
      rw [dif_neg (by omega), h1, if_pos (by omega)]
      unfold saveBatchRetryGo
      rw [dif_neg (by omega), hok]
      rfl

/-- Witness for `retry_backoff_amended`: all-transient attempts raise
after waits 1 s, 2 s; a first-attempt failure followed by a success on
attempt 1 returns after a single 1 s wait. -/
theorem retry_backoff_amended_witness :
    saveBatchWithRetry (fun _ => .transientError) 3 =
      ⟨.raisedTransient, [1, 2]⟩ ∧
    saveBatchWithRetry
        (fun i => if i = 0 then .transientError else .ok 5 2) 3 =
      ⟨.returned true 5 2, [1]⟩ := by
  refine ⟨(retry_backoff_amended (fun _ => .transientError)).1
    (fun i _ => rfl), ?_⟩
  have h := (retry_backoff_amended
    (fun i => if i = 0 then .transientError else .ok 5 2)).2
    1 5 2 (by omega) (by decide) (fun i hi => by interval_cases i; rfl)
  simpa using h

/-- How `_process_records_in_batches` (lines 515-582) can end: normally,
with a propagated transient / unknown exception from a batch save, or with
the final `RuntimeError` it raises itself when `failed_batches` is not
empty. -/
inductive RunError where
  | transientRaised
  | otherRaised
  | runtimeFailedBatches (failed : List Nat)
deriving DecidableEq, Repr

/-- The observable behaviour of one `_process_records_in_batches` run:
which batch numbers were saved, which were discarded as data errors, and
what (if anything) was raised.  Database effects of saved batches persist
even when the run ends by raising. -/
structure RunTrace where
  savedBatches : List Nat
  failedBatches : List Nat
  raised : Option RunError
deriving DecidableEq, Repr

/-- The batch-forming part of the streaming loop (lines 549-567): records
are appended to the current batch, which is flushed once its length
reaches `batch_size`; the non-empty tail batch is flushed at the end. -/
def formBatches {α : Type} (batchSize : Nat) :
    List α → List α → List (List α)
  | [], batch => if batch.isEmpty then [] else [batch]
  | r :: rest, batch =>
      if batchSize ≤ (batch ++ [r]).length then
        (batch ++ [r]) :: formBatches batchSize rest []
      else formBatches batchSize rest (batch ++ [r])

/-- The per-batch part of the loop: `_process_batch` (lines 479-512) calls
`_save_batch_with_retry` with the default `max_retries = 3`; a
`success=True` result counts the batch as saved, a `success=False` result
records the batch number in `failed_batches` and continues, and a raise
propagates immediately, aborting the remaining batches.  After the last
batch, a non-empty `failed_batches` raises `RuntimeError` (lines 570-576).
`attempts b n` is what the n-th save attempt of batch `b` would do. -/
def processBatchesGo (attempts : Nat → Nat → SaveOutcome) :
    List (List Nat) → Nat → List Nat → List Nat → RunTrace
  | [], _num, saved, failed =>
      ⟨saved, failed,
        if failed.isEmpty then none
        else some (.runtimeFailedBatches failed)⟩
  | _b :: rest, num, saved, failed =>
      match (saveBatchWithRetry (attempts (num + 1)) 3).outcome with
      | .returned true _ _ =>
          processBatchesGo attempts rest (num + 1) (saved ++ [num + 1]) failed
      | .returned false _ _ =>
          processBatchesGo attempts rest (num + 1) saved (failed ++ [num + 1])
      | .raisedTransient => ⟨saved, failed, some .transientRaised⟩
      | .raisedOther => ⟨saved, failed, some .otherRaised⟩

/-- From `_process_records_in_batches` (lines 515-582), with the stream
already materialised as `records` (batch formation commutes with batch
processing, so forming all batches first is observationally identical). -/
def processRecordsInBatches (attempts : Nat → Nat → SaveOutcome)
    (records : List Nat) (batchSize : Nat) : RunTrace :=
  processBatchesGo attempts (formBatches batchSize records []) 0 [] []

/-- Whether the first save attempt of batch `b` succeeds. -/
def firstAttemptOk (attempts : Nat → Nat → SaveOutcome) (b : Nat) : Bool :=
  match attempts b 0 with
  | .ok _ _ => true
  | _ => false

theorem saveBatchWithRetry_first_ok (ao : Nat → SaveOutcome) (c s : Nat)
    (h : ao 0 = .ok c s) :
    saveBatchWithRetry ao 3 = ⟨.returned true c s, []⟩ := by
  unfold saveBatchWithRetry saveBatchRetryGo
  rw [dif_neg (by omega), h]

theorem saveBatchWithRetry_first_integrity (ao : Nat → SaveOutcome)
    (h : ao 0 = .integrityError) :
    saveBatchWithRetry ao 3 = ⟨.returned false 0 0, []⟩ := by
  unfold saveBatchWithRetry saveBatchRetryGo
  rw [dif_neg (by omega), h]

/-- The attempt function of the C7 counterexample: batch 1 hits a
duplicate-key `IntegrityError` on its first save attempt, every other
batch saves fine. -/
def c7Attempts : Nat → Nat → SaveOutcome :=
  fun b _ => if b = 1 then .integrityError else .ok 1 0

/-- Counterexample to C7 as stated: two batches, the first discarded with
a data-integrity error, the second processed and saved normally — yet the
writer raises: `_process_records_in_batches` ends with
`RuntimeError(failed_batches=[1])` instead of returning silently, so the
run is reported as failed because of the data error. -/
theorem data_error_claim_false :
    processRecordsInBatches c7Attempts [10, 20] 1 =
      ⟨[2], [1], some (.runtimeFailedBatches [1])⟩ ∧
    (processRecordsInBatches c7Attempts [10, 20] 1).raised ≠ none := by
  have hb : formBatches 1 [10, 20] ([] : List Nat) = [[10], [20]] := by
    simp [formBatches]
  have h1 := saveBatchWithRetry_first_integrity (c7Attempts 1) (by rfl)
  have h2 := saveBatchWithRetry_first_ok (c7Attempts 2) 1 0 (by rfl)
  have hrun : processRecordsInBatches c7Attempts [10, 20] 1 =
      ⟨[2], [1], some (.runtimeFailedBatches [1])⟩ := by
    unfold processRecordsInBatches
    rw [hb]
    simp only [processBatchesGo, h1, h2]
    rfl
  exact ⟨hrun, by rw [hrun]; simp⟩

theorem processBatchesGo_spec (attempts : Nat → Nat → SaveOutcome)
    (hA : ∀ n, attempts n 0 = .integrityError ∨
      ∃ c s, attempts n 0 = .ok c s) :
    ∀ (batches : List (List Nat)) (num : Nat) (saved failed : List Nat),
    processBatchesGo attempts batches num saved failed =
      ⟨saved ++ (List.range' (num + 1) batches.length).filter
          (firstAttemptOk attempts),
       failed ++ (List.range' (num + 1) batches.length).filter
          (fun b => !(firstAttemptOk attempts b)),
       if (failed ++ (List.range' (num + 1) batches.length).filter
            (fun b => !(firstAttemptOk attempts b))).isEmpty then none
       else some (.runtimeFailedBatches
        (failed ++ (List.range' (num + 1) batches.length).filter
          (fun b => !(firstAttemptOk attempts b))))⟩ := by
  intro batches
  induction batches with
  | nil =>
      intro num saved failed
      simp [processBatchesGo]
  | cons b rest ih =>
      intro num saved failed
      have hrange : List.range' (num + 1) (b :: rest).length =
          (num + 1) :: List.range' (num + 2) rest.length := by
        rw [List.length_cons, List.range'_succ]
      rcases hA (num + 1) with h | ⟨c, s, h⟩
      · have hstep := saveBatchWithRetry_first_integrity (attempts (num + 1)) h
        have hok : firstAttemptOk attempts (num + 1) = false := by
          simp [firstAttemptOk, h]
        simp only [processBatchesGo, hstep]
        rw [ih (num + 1) saved (failed ++ [num + 1])]
        rw [hrange]
        simp [List.filter_cons, hok, List.append_assoc]
      · have hstep := saveBatchWithRetry_first_ok (attempts (num + 1)) c s h
        have hok : firstAttemptOk attempts (num + 1) = true := by
          simp [firstAttemptOk, h]
        simp only [processBatchesGo, hstep]
        rw [ih (num + 1) (saved ++ [num + 1]) failed]
        rw [hrange]
        simp [List.filter_cons, hok, List.append_assoc]

/-- C7 as amended: when every batch's save either succeeds or fails with a
data-integrity error on its first attempt, each failing batch is discarded
and counted and the per-batch save does not raise — processing of all
remaining records and batches completes, giving the save of every
succeeding batch — but after the final batch the writer raises a
`RuntimeError` listing the failed batch numbers whenever at least one
batch was discarded, so the tool run is reported as failed rather than
continuing silently. -/
theorem data_error_amended (attempts : Nat → Nat → SaveOutcome)
    (records : List Nat) (batchSize : Nat)
    (hA : ∀ n, attempts n 0 = .integrityError ∨
      ∃ c s, attempts n 0 = .ok c s) :
    processRecordsInBatches attempts records batchSize =
      ⟨(List.range' 1 (formBatches batchSize records []).length).filter
          (firstAttemptOk attempts),
       (List.range' 1 (formBatches batchSize records []).length).filter
          (fun b => !(firstAttemptOk attempts b)),
       if ((List.range' 1 (formBatches batchSize records []).length).filter
            (fun b => !(firstAttemptOk attempts b))).isEmpty then none
       else some (.runtimeFailedBatches
        ((List.range' 1 (formBatches batchSize records []).length).filter
          (fun b => !(firstAttemptOk attempts b))))⟩ := by
  unfold processRecordsInBatches
  rw [processBatchesGo_spec attempts hA (formBatches batchSize records []) 0 [] []]
  simp

/-- Witness for `data_error_amended` on the two-batch run of the
counterexample's attempt function. -/
theorem data_error_amended_witness :
    (∀ n, c7Attempts n 0 = .integrityError ∨
      ∃ c s, c7Attempts n 0 = .ok c s) ∧
    processRecordsInBatches c7Attempts [10, 20, 30] 2 =
      ⟨(List.range' 1 2).filter (firstAttemptOk c7Attempts),
       (List.range' 1 2).filter (fun b => !(firstAttemptOk c7Attempts b)),
       some (.runtimeFailedBatches
        ((List.range' 1 2).filter (fun b => !(firstAttemptOk c7Attempts b))))⟩ := by
  have hA : ∀ n, c7Attempts n 0 = .integrityError ∨
      ∃ c s, c7Attempts n 0 = .ok c s := by
    intro n
    by_cases hn : n = 1
    · exact Or.inl (by simp [c7Attempts, hn])
    · exact Or.inr ⟨1, 0, by simp [c7Attempts, hn]⟩
  have h := data_error_amended c7Attempts [10, 20, 30] 2 hA
  have hb : (formBatches 2 [10, 20, 30] ([] : List Nat)).length = 2 := by
    simp [formBatches]
  rw [hb] at h
  refine ⟨hA, ?_⟩
  rw [h]
  have : ((List.range' 1 2).filter
      (fun b => !(firstAttemptOk c7Attempts b))).isEmpty = false := by
    decide
  simp [this]

/-! ## C9: the Inventory provider emits only blacklist-allowed values
(apps/scan/providers/database_provider.py and base.py) -/

/-- The environment of one `DatabaseTargetProvider`: the asset-table
columns its iterators stream (subdomain names, distinct host/port pairs,
website and endpoint URL columns), the target row, and the blacklist
filter that `get_blacklist_filter` loads for the target. -/
structure DbProviderEnv where
  subdomains : List String
  hostPorts : List (String × Nat)
  websites : List String
  endpoints : List String
  target : Option TargetInfo
  blacklist : BlacklistFilter

/-- From `DatabaseTargetProvider.iter_subdomains` (lines 58-69): every
streamed subdomain name is yielded iff the blacklist allows it. -/
def iterSubdomains (env : DbProviderEnv) : List String :=
  env.subdomains.filter (fun d => env.blacklist.isAllowed d)

/-- From `DatabaseTargetProvider.iter_host_port_urls` (lines 71-94): the
candidate URLs of every distinct (host, port) row, each yielded iff the
blacklist allows it. -/
def iterHostPortUrls (env : DbProviderEnv) : List String :=
  (env.hostPorts.flatMap
    (fun hp => dbHostPortCandidates hp.1 hp.2)).filter
    (fun u => env.blacklist.isAllowed u)

/-- From `DatabaseTargetProvider.iter_websites` (lines 96-109): non-empty
URLs of the WebSite table, blacklist-filtered. -/
def iterWebsites (env : DbProviderEnv) : List String :=
  (env.websites.filter (fun u => decide (u ≠ ""))).filter
    (fun u => env.blacklist.isAllowed u)

/-- From `DatabaseTargetProvider.iter_endpoints` (lines 111-124):
non-empty URLs of the Endpoint table, blacklist-filtered. -/
def iterEndpoints (env : DbProviderEnv) : List String :=
  (env.endpoints.filter (fun u => decide (u ≠ ""))).filter
    (fun u => env.blacklist.isAllowed u)

/-- From `TargetProvider.iter_default_urls`
(apps/scan/providers/base.py, lines 146-165): the candidate URLs built
from the target before the blacklist check.  DOMAIN and IP targets yield
the http/https pair of the name; CIDR targets expand the hosts of the
network, falling back to the bare network address when the candidate list
is empty (the /32 and /128 case); any other type yields nothing. -/
def defaultUrlCandidates (t : TargetInfo) : List String :=
  match t.type with
  | .domain => ["http://" ++ t.name, "https://" ++ t.name]
  | .ip => ["http://" ++ t.name, "https://" ++ t.name]
  | .cidr =>
      if (t.cidrHosts.flatMap
          (fun ip => ["http://" ++ ip, "https://" ++ ip])).isEmpty then
        ["http://" ++ t.networkAddress, "https://" ++ t.networkAddress]
      else
        t.cidrHosts.flatMap (fun ip => ["http://" ++ ip, "https://" ++ ip])
  | .url => []

/-- From `TargetProvider.iter_default_urls` (lines 118-169): no target, no
URLs; otherwise each candidate URL is yielded iff the blacklist allows
it. -/
def iterDefaultUrls (env : DbProviderEnv) : List String :=
  match env.target with
  | none => []
  | some t => (defaultUrlCandidates t).filter
      (fun u => env.blacklist.isAllowed u)

/-- C9: every value emitted by any iterator of the Inventory (database)
provider — `iter_subdomains`, `iter_host_port_urls`, `iter_websites`,
`iter_endpoints` and `iter_default_urls` — satisfies `is_allowed`, i.e. no
rule of the provider's blacklist matches the emitted string. -/
theorem provider_blacklist_invariant (env : DbProviderEnv) (v : String)
    (hv : v ∈ iterSubdomains env ∨ v ∈ iterHostPortUrls env ∨
      v ∈ iterWebsites env ∨ v ∈ iterEndpoints env ∨
      v ∈ iterDefaultUrls env) :
    env.blacklist.isAllowed v = true ∧
    ∀ r ∈ env.blacklist.rules, r.appliesTo v = false := by
  have hall : env.blacklist.isAllowed v = true := by
    rcases hv with h | h | h | h | h
    · exact (List.mem_filter.mp h).2
    · exact (List.mem_filter.mp h).2
    · exact (List.mem_filter.mp h).2
    · exact (List.mem_filter.mp h).2
    · unfold iterDefaultUrls at h
      match henv : env.target with
      | none => rw [henv] at h; exact absurd h (List.not_mem_nil v)
      | some t => rw [henv] at h; exact (List.mem_filter.mp h).2
  exact ⟨hall, (isAllowed_iff_no_rule_matches _ _).mp hall⟩

/-- Scenario-3 environment: a suffix-style blacklist rule (modelled as its
exact-match predicate on the one blocked name) and three stored
subdomains. -/
def c9Env : DbProviderEnv :=
  { subdomains := ["api.example.com", "internal.example.com"]
    hostPorts := [("api.example.com", 8080)]
    websites := ["http://api.example.com:8080"]
    endpoints := []
    target := none
    blacklist := ⟨[⟨fun s => s = "internal.example.com"⟩]⟩ }

/-- Witness for `provider_blacklist_invariant`: the emitted subdomain
`api.example.com` passes the blacklist. -/
theorem provider_blacklist_invariant_witness :
    "api.example.com" ∈ iterSubdomains c9Env ∧
    c9Env.blacklist.isAllowed "api.example.com" = true ∧
    "internal.example.com" ∉ iterSubdomains c9Env := by
  have h := provider_blacklist_invariant c9Env "api.example.com"
    (Or.inl (by decide))
  exact ⟨by decide, h.1, by decide⟩

end VulnScan
